import Mathlib

/-!
Verification of the GalaxEye maritime-surveillance analysis pipeline.

Shallow embedding conventions:
* Python floats are modelled as exact rationals (`Rat`).
* Python `float('inf')` is modelled as `none` in `Option Rat` (`PyFloat`);
  a finite float is `some q`.
* Python dictionaries with a fixed key set are modelled as structures; a key
  that is present only on some branches becomes an `Option` field (`none`
  meaning "key absent").
* `sorted(xs, key=k)` is `List.insertionSort` with the comparison on the key
  (both are stable ascending sorts, so they agree as functions).
-/

set_option maxHeartbeats 1000000

namespace GalaxEye

/-- `none` models Python `float('inf')`; `some q` a finite float value. -/
abbrev PyFloat := Option Rat

/-- One parsed satellite pass: the event record built by `parse_stk_csv` and
consumed by the metrics functions.  The derived ISO-format string fields of
the Python dict are omitted; the numeric `unix_start`/`unix_stop` fields
carry the same parsed instants. -/
structure Pass where
  satellite_id : Int
  pass_num : Int
  start_time_str : String
  stop_time_str : String
  duration_sec : Rat
  unix_start : Rat
  unix_stop : Rat
deriving Repr, DecidableEq

/-- `SCENARIO_START` = 2026-01-01T00:00:00Z as unix seconds (the value of
`datetime(2026,1,1,tzinfo=timezone.utc).timestamp()` in both metrics files). -/
def SCENARIO_START : Rat := 1767225600

/-- Python `min(p :: ps, key=lambda p: p['unix_start'])`: the first element
attaining the minimal `unix_start`. -/
def minByStart (p : Pass) (ps : List Pass) : Pass :=
  ps.foldl (fun best q => if q.unix_start < best.unix_start then q else best) p

/-- `np.mean` over a list of rationals (callers only use it on nonempty lists). -/
def npMean (l : List Rat) : Rat := l.sum / l.length

/-- Python `min` over a nonempty numeric list (0 as the unused empty default). -/
def listMin : List Rat → Rat
  | [] => 0
  | x :: xs => xs.foldl min x

/-- Python `max` over a nonempty numeric list (0 as the unused empty default). -/
def listMax : List Rat → Rat
  | [] => 0
  | x :: xs => xs.foldl max x

/-- `np.median`: middle element of the ascending sort (mean of the two middle
elements for even length). -/
def npMedian (l : List Rat) : Rat :=
  let s := l.insertionSort (fun a b => a ≤ b)
  let n := s.length
  if n % 2 = 1 then s.getD (n / 2) 0
  else (s.getD (n / 2 - 1) 0 + s.getD (n / 2) 0) / 2

/-- `sorted(passes, key=lambda p: p['unix_start'])`: Python's stable
ascending sort, modelled by (stable) insertion sort. -/
def sortByStart (passes : List Pass) : List Pass :=
  passes.insertionSort (fun a b => a.unix_start ≤ b.unix_start)

/-- `compute_detection_latency` of `src/analytics/compute_metrics.py`:
seconds from scenario start to the earliest pass; infinity when no passes.
This variant performs no clamping. -/
def compute_detection_latency : List Pass → PyFloat
  | [] => none
  | p :: ps => some ((minByStart p ps).unix_start - SCENARIO_START)

/-- `compute_detection_latency` of `src/analytics/compute_eez_metrics.py`:
`max(0, latency_sec / 60)` minutes from scenario start to the earliest pass;
infinity when no passes. -/
def compute_detection_latency_eez : List Pass → PyFloat
  | [] => none
  | p :: ps => some (max 0 (((minByStart p ps).unix_start - SCENARIO_START) / 60))

/-- Gaps `next.unix_start - previous.unix_stop` over adjacent pairs of a list. -/
def adjacentGaps : List Pass → List Rat
  | [] => []
  | [_] => []
  | a :: b :: rest => (b.unix_start - a.unix_stop) :: adjacentGaps (b :: rest)

/-- Result dict of `compute_revisit_times` in `compute_metrics.py`.  The
`count` key is absent (`none`) on the two degenerate branches. -/
structure RevisitStats where
  min : PyFloat
  mean : PyFloat
  max : Rat
  median : PyFloat
  count : Option Nat
deriving Repr, DecidableEq

/-- `compute_revisit_times` of `src/analytics/compute_metrics.py`: gap
distribution (seconds) over consecutive sorted passes, positive gaps only. -/
def compute_revisit_times (passes : List Pass) : RevisitStats :=
  if passes.length < 2 then
    { min := none, mean := none, max := 0, median := none, count := none }
  else
    let sorted_passes := sortByStart passes
    let gaps := (adjacentGaps sorted_passes).filter (fun g => decide (0 < g))
    if gaps.isEmpty then
      { min := some 0, mean := some 0, max := 0, median := some 0, count := none }
    else
      { min := some (listMin gaps), mean := some (npMean gaps),
        max := listMax gaps, median := some (npMedian gaps),
        count := some gaps.length }

/-- Result dict of `compute_revisit_times` in `compute_eez_metrics.py`;
here the `count` key is always present. -/
structure RevisitStatsEEZ where
  min : PyFloat
  mean : PyFloat
  max : Rat
  median : PyFloat
  count : Nat
deriving Repr, DecidableEq

/-- `compute_revisit_times` of `src/analytics/compute_eez_metrics.py`: like
the other variant but gaps are converted to minutes and `count` is always
reported. -/
def compute_revisit_times_eez (passes : List Pass) : RevisitStatsEEZ :=
  if passes.length < 2 then
    { min := none, mean := none, max := 0, median := none, count := 0 }
  else
    let sorted_passes := sortByStart passes
    let gaps := ((adjacentGaps sorted_passes).filter
        (fun g => decide (0 < g))).map (fun g => g / 60)
    if gaps.isEmpty then
      { min := some 0, mean := some 0, max := 0, median := some 0, count := 0 }
    else
      { min := some (listMin gaps), mean := some (npMean gaps),
        max := listMax gaps, median := some (npMedian gaps),
        count := gaps.length }

/-- Result dict of `compute_fusion_windows`. -/
structure FusionStats where
  count : Nat
  total_duration : Rat
  mean_duration : Rat
  max_duration : Rat
deriving Repr, DecidableEq

/-- The `overlaps` list built by the nested pairwise loop of
`compute_fusion_windows`: one duration per pair with a non-degenerate
interval intersection. -/
def overlapDurations (sar_sorted opt_sorted : List Pass) : List Rat :=
  sar_sorted.flatMap (fun sar =>
    opt_sorted.filterMap (fun opt =>
      let overlap_start := max sar.unix_start opt.unix_start
      let overlap_end := min sar.unix_stop opt.unix_stop
      if overlap_start < overlap_end then some (overlap_end - overlap_start)
      else none))

/-- `compute_fusion_windows` of `src/analytics/compute_metrics.py`:
count/total/mean/max duration of pairwise SAR-Optical overlaps. -/
def compute_fusion_windows (sar_passes optical_passes : List Pass) : FusionStats :=
  if sar_passes.isEmpty ∨ optical_passes.isEmpty then
    { count := 0, total_duration := 0, mean_duration := 0, max_duration := 0 }
  else
    let overlaps := overlapDurations (sortByStart sar_passes) (sortByStart optical_passes)
    if overlaps.isEmpty then
      { count := 0, total_duration := 0, mean_duration := 0, max_duration := 0 }
    else
      { count := overlaps.length, total_duration := overlaps.sum,
        mean_duration := npMean overlaps, max_duration := listMax overlaps }

/-- Result dict of `compute_delivery_latency`; the `count` key is absent on
the infinity branches. -/
structure DeliveryStats where
  min : PyFloat
  mean : PyFloat
  max : PyFloat
  count : Option Nat
deriving Repr, DecidableEq

/-- The `latencies` list of `compute_delivery_latency`: for each ship pass
(sorted by `unix_stop`), the wait until the earliest ground-station pass
starting at or after the ship pass ends, skipped when none exists. -/
def deliveryLatencies (ship_passes gs_passes : List Pass) : List Rat :=
  let ship_sorted := ship_passes.insertionSort (fun a b => a.unix_stop ≤ b.unix_stop)
  let gs_sorted := gs_passes.insertionSort (fun a b => a.unix_start ≤ b.unix_start)
  ship_sorted.filterMap (fun ship_pass =>
    let ship_end := ship_pass.unix_stop
    match gs_sorted.filter (fun gs => decide (ship_end ≤ gs.unix_start)) with
    | [] => none
    | g :: gs => some ((minByStart g gs).unix_start - ship_end))

/-- `compute_delivery_latency` of `src/analytics/compute_metrics.py`. -/
def compute_delivery_latency (ship_passes gs_passes : List Pass) : DeliveryStats :=
  if ship_passes.isEmpty ∨ gs_passes.isEmpty then
    { min := none, mean := none, max := none, count := none }
  else
    let latencies := deliveryLatencies ship_passes gs_passes
    if latencies.isEmpty then
      { min := none, mean := none, max := none, count := none }
    else
      { min := some (listMin latencies), mean := some (npMean latencies),
        max := some (listMax latencies), count := some latencies.length }

/-- `compute_total_access_time` of `src/analytics/compute_eez_metrics.py`:
sum of pass durations in minutes. -/
def compute_total_access_time (passes : List Pass) : Rat :=
  if passes.isEmpty then 0
  else (passes.map (fun p => p.duration_sec)).sum / 60

/-- `compute_coverage_percent` of `src/analytics/compute_eez_metrics.py`:
total access time as a percentage of 24 hours; no cap is applied. -/
def compute_coverage_percent (passes : List Pass) : Rat :=
  (compute_total_access_time passes / (24 * 60)) * 100

/-! ### Pipeline fusion benefits (`src/pipeline.py`) -/

/-- One row of the pandas access DataFrame, restricted to the columns read by
`compute_fusion_benefits`. -/
structure AccessRecord where
  constellation_size : Option Int
  sensor_type : String
  duration_seconds : Rat
deriving Repr, DecidableEq

/-- Python 3 `round` to an integer: round half to even (banker's rounding). -/
def roundHalfEven (q : Rat) : Int :=
  let f := ⌊q⌋
  let frac := q - f
  if frac < 1/2 then f
  else if 1/2 < frac then f + 1
  else if f % 2 = 0 then f else f + 1

/-- Python `round(q, 1)`. -/
def round1 (q : Rat) : Rat := (roundHalfEven (10 * q) : Rat) / 10

/-- Python `round(q, 2)`. -/
def round2 (q : Rat) : Rat := (roundHalfEven (100 * q) : Rat) / 100

/-- The per-constellation entry of `compute_fusion_benefits` (latency fields,
which depend only on the constellation size constant table, are omitted). -/
structure FusionBenefit where
  constellation_size : Int
  sar_coverage_pct : Rat
  optical_coverage_pct : Rat
  fusion_coverage_pct : Rat
  fusion_gain_multiplier : Rat
  sar_passes : Nat
  optical_passes : Nat
deriving Repr, DecidableEq

/-- Body of the `for constellation_size in [6, 12, 32]` loop of
`compute_fusion_benefits` in `src/pipeline.py`: `none` when either sensor's
filtered rows are empty (the `continue` branch). -/
def compute_fusion_benefits_for (access_data : List AccessRecord)
    (constellation_size : Int) : Option FusionBenefit :=
  let sar_data := access_data.filter (fun r =>
    r.constellation_size == some constellation_size && r.sensor_type == "SAR")
  let optical_data := access_data.filter (fun r =>
    r.constellation_size == some constellation_size && r.sensor_type == "Optical")
  if sar_data.length = 0 ∨ optical_data.length = 0 then none
  else
    let sar_coverage := ((sar_data.map (fun r => r.duration_seconds)).sum / (24 * 3600)) * 100
    let optical_coverage := ((optical_data.map (fun r => r.duration_seconds)).sum / (24 * 3600)) * 100
    let fusion_coverage := min (sar_coverage + optical_coverage * (1/2)) 100
    let fusion_gain := if 0 < sar_coverage then fusion_coverage / sar_coverage else 0
    some { constellation_size := constellation_size,
           sar_coverage_pct := round1 sar_coverage,
           optical_coverage_pct := round1 optical_coverage,
           fusion_coverage_pct := round1 fusion_coverage,
           fusion_gain_multiplier := round2 fusion_gain,
           sar_passes := sar_data.length,
           optical_passes := optical_data.length }

/-- `compute_fusion_benefits` of `src/pipeline.py`: entries for the sizes
6, 12, 32 whose SAR and Optical buckets are both nonempty. -/
def compute_fusion_benefits (access_data : List AccessRecord) : List FusionBenefit :=
  [6, 12, 32].filterMap (compute_fusion_benefits_for access_data)

/-! ### Access-record parser (`src/parsers/parse_stk_access.py`)

The parser input is modelled after `csv.reader` output: a list of rows, each
row a list of cell strings. -/

/-- Python `str.strip()`: drop leading and trailing whitespace. -/
def pyStrip (s : String) : String :=
  (((s.toList.dropWhile Char.isWhitespace).reverse.dropWhile
      Char.isWhitespace).reverse).asString

/-- Python `str.strip('"')`: drop every leading and trailing `"` character. -/
def stripQuotes (s : String) : String :=
  (((s.toList.dropWhile (fun c => c == '"')).reverse.dropWhile
      (fun c => c == '"')).reverse).asString

/-- The row-cleaning comprehension
`[cell.strip().strip('"') for cell in row if cell.strip()]`. -/
def cleanRow (row : List String) : List String :=
  (row.filter (fun cell => !(pyStrip cell).isEmpty)).map
    (fun cell => stripQuotes (pyStrip cell))

/-- Substring containment on character lists (Python `pat in s`). -/
def containsSub (pat : List Char) : List Char → Bool
  | [] => pat.isEmpty
  | c :: t => pat.isPrefixOf (c :: t) || containsSub pat t

/-- Python `pat in s` for strings. -/
def strContains (s pat : String) : Bool := containsSub pat.toList s.toList

/-- The statistics-row labels skipped by the scanner. -/
def STAT_PREFIXES : List String :=
  ["Min Duration", "Max Duration", "Mean Duration", "Total Duration", "Statistics"]

/-- `first_cell.startswith((...))` over the statistics labels. -/
def isStatRow (first_cell : String) : Bool :=
  STAT_PREFIXES.any (fun p => p.isPrefixOf first_cell)

/-- Decimal digit run to a natural number. -/
def digitsToNat (ds : List Char) : Nat :=
  ds.foldl (fun n c => 10 * n + (c.toNat - Char.toNat '0')) 0

/-- Python `int(s)` on a stripped string: optional sign, then decimal digits
(underscore digit grouping is not modelled). -/
def parseInt (s : String) : Option Int :=
  match s.toList with
  | [] => none
  | '-' :: ds =>
      if !ds.isEmpty && ds.all Char.isDigit then some (-(digitsToNat ds : Int)) else none
  | '+' :: ds =>
      if !ds.isEmpty && ds.all Char.isDigit then some (digitsToNat ds : Int) else none
  | ds =>
      if ds.all Char.isDigit then some (digitsToNat ds : Int) else none

/-- Unsigned decimal literal `digits [ '.' digits ]` with at least one digit
on either side of the point. -/
def parseDecimal (ds : List Char) : Option Rat :=
  let intPart := ds.takeWhile Char.isDigit
  match ds.drop intPart.length with
  | [] => if intPart.isEmpty then none else some (digitsToNat intPart : Rat)
  | '.' :: fds =>
      if fds.all Char.isDigit && (!intPart.isEmpty || !fds.isEmpty) then
        some ((digitsToNat intPart : Rat) + (digitsToNat fds : Rat) / (10 ^ fds.length))
      else none
  | _ => none

/-- Python `float(s)` on a stripped string, modelled for plain decimal
literals (scientific notation and infinity literals are not modelled). -/
def parseFloat (s : String) : Option Rat :=
  match s.toList with
  | '-' :: ds => (parseDecimal ds).map (fun q => -q)
  | '+' :: ds => parseDecimal ds
  | ds => parseDecimal ds

/-- Gregorian leap-year rule. -/
def isLeapYear (y : Nat) : Bool :=
  y % 4 = 0 && (y % 100 ≠ 0 || y % 400 = 0)

/-- Length of a month (`datetime` validation). -/
def daysInMonth (y m : Nat) : Nat :=
  if m = 2 then (if isLeapYear y then 29 else 28)
  else if [4, 6, 9, 11].contains m then 30
  else 31

/-- Days from 0001-01-01 to the start of year `y` (proleptic Gregorian). -/
def daysBeforeYear (y : Nat) : Nat :=
  365 * (y - 1) + (y - 1) / 4 - (y - 1) / 100 + (y - 1) / 400

/-- Days from the start of year `y` to the start of its month `m`. -/
def daysBeforeMonth (y m : Nat) : Nat :=
  (List.range (m - 1)).foldl (fun acc i => acc + daysInMonth y (i + 1)) 0

/-- Days from 0001-01-01 to 1970-01-01. -/
def EPOCH_DAYS : Nat := daysBeforeYear 1970

/-- `datetime(y,mo,d,h,mi,s,µs).timestamp()` for a naive datetime taken as
UTC: seconds since the unix epoch. -/
def timestampOf (y mo d h mi s : Nat) (frac : Rat) : Rat :=
  (((daysBeforeYear y + daysBeforeMonth y mo + (d - 1) : Int) - (EPOCH_DAYS : Int)) * 86400
    + ((h * 3600 + mi * 60 + s : Nat) : Int) : Int) + frac

/-- Consume a run of whitespace (at least one character): a literal space in
a `strptime` format matches one or more whitespace characters. -/
def skipWs1 : List Char → Option (List Char)
  | c :: t => if c.isWhitespace then some (t.dropWhile Char.isWhitespace) else none
  | [] => none

/-- Abbreviated month names recognized by `%b`. -/
def MONTHS : List String :=
  ["Jan", "Feb", "Mar", "Apr", "May", "Jun", "Jul", "Aug", "Sep", "Oct", "Nov", "Dec"]

/-- Match `%b` (case-insensitive three-letter month): the month number and
the remaining characters. -/
def matchMonth (l : List Char) : Option (Nat × List Char) :=
  MONTHS.enum.findSome? (fun im =>
    if (im.2.toList.map Char.toLower).isPrefixOf (l.map Char.toLower) then
      some (im.1 + 1, l.drop 3)
    else none)

/-- `datetime.strptime(s, "%d %b %Y %H:%M:%S.%f").timestamp()`, modelled as a
total function returning `none` on any `ValueError`.  Numeric fields consume
their maximal digit run (`%d`/`%H`/`%M`/`%S` at most two digits, `%Y` exactly
four, `%f` one to six), the full string must be consumed, and the field
values must form a valid datetime. -/
def parseTimestamp (str : String) : Option Rat := do
  let l := str.toList
  let dayDs := l.takeWhile Char.isDigit
  if dayDs.isEmpty || decide (2 < dayDs.length) then none else
  let d := digitsToNat dayDs
  let rest ← skipWs1 (l.drop dayDs.length)
  let (mo, rest) ← matchMonth rest
  let rest ← skipWs1 rest
  let yDs := rest.takeWhile Char.isDigit
  if decide (yDs.length ≠ 4) then none else
  let y := digitsToNat yDs
  let rest ← skipWs1 (rest.drop 4)
  let hDs := rest.takeWhile Char.isDigit
  if hDs.isEmpty || decide (2 < hDs.length) then none else
  let h := digitsToNat hDs
  let rest := rest.drop hDs.length
  match rest with
  | ':' :: rest =>
    let miDs := rest.takeWhile Char.isDigit
    if miDs.isEmpty || decide (2 < miDs.length) then none else
    let mi := digitsToNat miDs
    match rest.drop miDs.length with
    | ':' :: rest =>
      let sDs := rest.takeWhile Char.isDigit
      if sDs.isEmpty || decide (2 < sDs.length) then none else
      let s := digitsToNat sDs
      match rest.drop sDs.length with
      | '.' :: rest =>
        let fDs := rest.takeWhile Char.isDigit
        if fDs.isEmpty || decide (6 < fDs.length) then none else
        if !(rest.drop fDs.length).isEmpty then none else
        let frac := (digitsToNat fDs : Rat) / (10 ^ fDs.length)
        if decide (1 ≤ y) && decide (1 ≤ mo) && decide (mo ≤ 12) &&
           decide (1 ≤ d) && decide (d ≤ daysInMonth y mo) &&
           decide (h ≤ 23) && decide (mi ≤ 59) && decide (s ≤ 59) then
          some (timestampOf y mo d h mi s frac)
        else none
      | _ => none
    | _ => none
  | _ => none

/-- The `try` block of the data-row branch: every field must parse, else the
row is skipped. -/
def parseDataRow (c0 c1 c2 c3 : String) :
    Option (Int × String × String × Rat × Rat × Rat) := do
  let access_id ← parseInt c0
  let start_time := stripQuotes c1
  let stop_time := stripQuotes c2
  let duration ← parseFloat (stripQuotes c3)
  let unix_start ← parseTimestamp start_time
  let unix_stop ← parseTimestamp stop_time
  some (access_id, start_time, stop_time, duration, unix_start, unix_stop)

/-- Scanner state: the running satellite counter (started at `-1`) and the
accumulated passes. -/
structure ScanState where
  satellite_id : Int
  passes : List Pass
deriving Repr, DecidableEq

/-- One iteration of the scanner loop on an already-cleaned row. -/
def processCleanRow (st : ScanState) (row : List String) : ScanState :=
  match row with
  | c0 :: c1 :: c2 :: c3 :: _ =>
    if c0 == "Access" && decide (4 ≤ row.length) && strContains c1 "Start Time" then
      { st with satellite_id := st.satellite_id + 1 }
    else if isStatRow c0 then st
    else
      match parseDataRow c0 c1 c2 c3 with
      | some (aid, sstr, pstr, dur, ust, usp) =>
        { st with passes := st.passes ++
            [{ satellite_id := st.satellite_id, pass_num := aid,
               start_time_str := sstr, stop_time_str := pstr,
               duration_sec := dur, unix_start := ust, unix_stop := usp }] }
      | none => st
  | _ => st

/-- One iteration of the scanner loop on a raw `csv.reader` row. -/
def processRow (st : ScanState) (rawRow : List String) : ScanState :=
  processCleanRow st (cleanRow rawRow)

/-- `parse_stk_csv`: scan every row of the file, starting the satellite
counter at `-1`, and return the accumulated passes in input order. -/
def parse_stk_csv (rows : List (List String)) : List Pass :=
  (rows.foldl processRow { satellite_id := -1, passes := [] }).passes

/-! ### Ship-transit file classifier (`src/parsers/parse_ship_eez.py`) -/

/-- Regex word character `\w` (ASCII). -/
def wordChar (c : Char) : Bool := c.isAlphanum || c == '_'

/-- Character class `[\d_]`. -/
def duChar (c : Char) : Bool := c.isDigit || c == '_'

/-- Attempt `EEZ_(\w+)` anchored at the head of `l`. -/
def eezCaptureAt (l : List Char) : Option (List Char) :=
  if "EEZ_".toList.isPrefixOf l then
    let run := (l.drop 4).takeWhile wordChar
    if run.isEmpty then none else some run
  else none

/-- `re.search(r'EEZ_(\w+)', ...)`: leftmost match's capture group. -/
def findEezCapture : List Char → Option (List Char)
  | [] => none
  | c :: t =>
    match eezCaptureAt (c :: t) with
    | some r => some r
    | none => findEezCapture t

/-- Greedy-with-backtracking search for the largest `k ≥ 1` such that the
text after the `k`-character capture starts with `_Access`. -/
def shipTryLen (rest : List Char) : Nat → Option (List Char)
  | 0 => none
  | k + 1 =>
    if "_Access".toList.isPrefixOf (rest.drop (k + 1)) then some (rest.take (k + 1))
    else shipTryLen rest k

/-- Attempt `Ship([\d_]+)_Access` anchored at the head of `l`. -/
def shipCaptureAt (l : List Char) : Option (List Char) :=
  if "Ship".toList.isPrefixOf l then
    let rest := l.drop 4
    shipTryLen rest (rest.takeWhile duChar).length
  else none

/-- `re.search(r'Ship([\d_]+)_Access', ...)`: leftmost match's capture. -/
def findShipCapture : List Char → Option (List Char)
  | [] => none
  | c :: t =>
    match shipCaptureAt (c :: t) with
    | some r => some r
    | none => findShipCapture t

/-- `eez_match.group(1)` of the EEZ-name extraction, `none` when the file is
skipped. -/
def extractEez (filename : String) : Option String :=
  (findEezCapture filename.toList).map List.asString

/-- Python `str.split('_')` on the capture's characters. -/
def splitOnUnderscore : List Char → List (List Char)
  | [] => [[]]
  | c :: t =>
    if c == '_' then [] :: splitOnUnderscore t
    else
      match splitOnUnderscore t with
      | [] => [[c]]
      | g :: gs => (c :: g) :: gs

/-- `[int(s) for s in ship_str.split('_') if s]` applied to the ship capture
group (whose characters are digits or underscores, so `int` is decimal
digit parsing); `none` when the pattern does not match and the file is
skipped. -/
def extractShipNumbers (filename : String) : Option (List Nat) :=
  (findShipCapture filename.toList).map (fun cap =>
    (splitOnUnderscore cap).filterMap
      (fun s => if s.isEmpty then none else some (digitsToNat s)))

/-- Body of the per-file loop of `main` in `src/parsers/parse_ship_eez.py`:
the EEZ name and the `(ship_key, passes)` assignments made for one file;
`none` when a filename pattern fails and the file is skipped.  The file is
parsed once; every ship key is mapped to that single parse result. -/
def processShipFile (filename : String) (rows : List (List String)) :
    Option (String × List (String × List Pass)) := do
  let eez_name ← extractEez filename
  let ship_numbers ← extractShipNumbers filename
  let passes := parse_stk_csv rows
  some (eez_name, ship_numbers.map (fun n => ("Ship" ++ toString n, passes)))

/-- The header-row condition of the scanner, as a predicate on an
already-cleaned row (the row must also have survived the four-cell check,
which the length conjunct subsumes). -/
def isHeaderRow : List String → Bool
  | row@(c0 :: c1 :: _) =>
    c0 == "Access" && decide (4 ≤ row.length) && strContains c1 "Start Time"
  | _ => false

/-- Integrity property of one raw row, used as a hypothesis: if the row's
cleaned cells parse as a data row, then the parsed stop instant exceeds the
parsed start instant and the parsed duration field matches their difference
within 0.01 s. -/
def rowParseIntegrity (r : List String) : Bool :=
  match cleanRow r with
  | c0 :: c1 :: c2 :: c3 :: _ =>
    match parseDataRow c0 c1 c2 c3 with
    | some (_, _, _, dur, ust, usp) =>
      decide (ust < usp) && decide (|dur - (usp - ust)| ≤ 1 / 100)
    | none => true
  | _ => true

/-! ## Helper lemmas -/

/-- Pass literal with the metric-relevant numeric fields (used for concrete
test inputs). -/
def mkPass (sid pnum : Int) (dur ustart ustop : Rat) : Pass :=
  { satellite_id := sid, pass_num := pnum, start_time_str := "", stop_time_str := "",
    duration_sec := dur, unix_start := ustart, unix_stop := ustop }

theorem listMin_mem : ∀ (x : Rat) (xs : List Rat), listMin (x :: xs) ∈ x :: xs
  | x, [] => by simp [listMin]
  | x, y :: ys => by
    have e : listMin (x :: y :: ys) = listMin (min x y :: ys) := rfl
    rw [e]
    rcases List.mem_cons.1 (listMin_mem (min x y) ys) with h | h
    · rcases min_choice x y with hc | hc
      · rw [h, hc]; exact List.mem_cons_self _ _
      · rw [h, hc]; exact List.mem_cons_of_mem _ (List.mem_cons_self _ _)
    · exact List.mem_cons_of_mem _ (List.mem_cons_of_mem _ h)

theorem listMin_le : ∀ (x : Rat) (xs : List Rat) (y : Rat), y ∈ x :: xs →
    listMin (x :: xs) ≤ y
  | x, [], y, hy => by
    rcases List.mem_cons.1 hy with rfl | h
    · exact le_refl _
    · simp at h
  | x, z :: zs, y, hy => by
    have e : listMin (x :: z :: zs) = listMin (min x z :: zs) := rfl
    rw [e]
    rcases List.mem_cons.1 hy with hEq | hy'
    · rw [hEq]
      exact le_trans (listMin_le (min x z) zs (min x z) (List.mem_cons_self _ _))
        (min_le_left _ _)
    · rcases List.mem_cons.1 hy' with hEq | hy''
      · rw [hEq]
        exact le_trans (listMin_le (min x z) zs (min x z) (List.mem_cons_self _ _))
          (min_le_right _ _)
      · exact listMin_le (min x z) zs y (List.mem_cons_of_mem _ hy'')

theorem listMin_perm {l₁ l₂ : List Rat} (h : l₁.Perm l₂) : listMin l₁ = listMin l₂ := by
  match l₁, l₂ with
  | [], [] => rfl
  | [], y :: ys => exact absurd h.length_eq (by simp)
  | x :: xs, [] => exact absurd h.length_eq (by simp)
  | x :: xs, y :: ys =>
    exact le_antisymm
      (listMin_le x xs _ (h.mem_iff.2 (listMin_mem y ys)))
      (listMin_le y ys _ (h.mem_iff.1 (listMin_mem x xs)))

theorem minByStart_unix_start : ∀ (p : Pass) (ps : List Pass),
    (minByStart p ps).unix_start = listMin ((p :: ps).map (fun q => q.unix_start))
  | p, [] => rfl
  | p, q :: qs => by
    have e1 : minByStart p (q :: qs)
        = minByStart (if q.unix_start < p.unix_start then q else p) qs := rfl
    rw [e1, minByStart_unix_start _ qs]
    have e2 : (if q.unix_start < p.unix_start then q else p).unix_start
        = min p.unix_start q.unix_start := by
      split
      · next hlt => exact (min_eq_right (le_of_lt hlt)).symm
      · next hge => exact (min_eq_left (le_of_not_lt hge)).symm
    simp only [List.map_cons, e2]
    rfl

theorem compute_coverage_percent_eq (passes : List Pass) :
    compute_coverage_percent passes
      = 100 * (passes.map (fun p => p.duration_sec)).sum / 86400 := by
  cases passes with
  | nil => simp [compute_coverage_percent, compute_total_access_time]
  | cons p ps =>
    simp only [compute_coverage_percent, compute_total_access_time, List.isEmpty_cons,
      Bool.false_eq_true, if_false]
    ring

/-! ## Claim C4 -/

/-- C4: for every event list, the coverage-percentage function returns
exactly `100 * Σ duration_sec / 86400` (the code's fixed 24-hour period),
with no cap at 100, and multiplying every event's duration by a uniform
factor multiplies the result by exactly that factor. -/
theorem coverage_percent_exact_and_linear (passes : List Pass) (k : Rat) :
    compute_coverage_percent passes
      = 100 * (passes.map (fun p => p.duration_sec)).sum / 86400
    ∧ compute_coverage_percent
        (passes.map (fun p => { p with duration_sec := k * p.duration_sec }))
      = k * compute_coverage_percent passes := by
  refine ⟨compute_coverage_percent_eq passes, ?_⟩
  rw [compute_coverage_percent_eq, compute_coverage_percent_eq]
  rw [List.map_map]
  have e : (passes.map ((fun p => p.duration_sec) ∘
      (fun p => { p with duration_sec := k * p.duration_sec }))).sum
      = (passes.map (fun p => k * p.duration_sec)).sum := rfl
  rw [e, List.sum_map_mul_left]
  ring

/-! ## Claim C1 -/

unseal Rat.sub Rat.add Rat.mul Rat.inv Rat.ofScientific in
/-- C1 counterexample: the `compute_metrics.py` detection-latency variant
applies no clamping — a pass starting 100 s before the scenario epoch yields
a negative latency, contradicting "the result is never negative". -/
theorem detection_latency_negative_counterexample :
    compute_detection_latency [mkPass 0 1 100 1767225500 1767225600] = some (-100)
    ∧ ((-100 : Rat) < 0) := by
  exact ⟨by decide, by decide⟩

/-- C1 (amended): on an empty list both detection-latency variants return
infinity; otherwise the `compute_metrics.py` variant returns
`min start_time − scenario_start` in seconds with no clamping (it can be
negative), while the `compute_eez_metrics.py` variant returns that
difference converted to minutes and clamped to be non-negative, so only the
EEZ variant never returns a negative value. -/
theorem detection_latency_amended (passes : List Pass) :
    (passes = [] → compute_detection_latency passes = none
        ∧ compute_detection_latency_eez passes = none)
    ∧ (passes ≠ [] →
        compute_detection_latency passes
          = some (listMin (passes.map (fun p => p.unix_start)) - SCENARIO_START)
        ∧ compute_detection_latency_eez passes
          = some (max 0 ((listMin (passes.map (fun p => p.unix_start)) - SCENARIO_START) / 60))
        ∧ ∀ q, compute_detection_latency_eez passes = some q → 0 ≤ q) := by
  constructor
  · rintro rfl; exact ⟨rfl, rfl⟩
  · intro h
    obtain ⟨p, ps, rfl⟩ := List.exists_cons_of_ne_nil h
    refine ⟨?_, ?_, ?_⟩
    · show some ((minByStart p ps).unix_start - SCENARIO_START) = _
      rw [minByStart_unix_start]
    · show some (max 0 (((minByStart p ps).unix_start - SCENARIO_START) / 60)) = _
      rw [minByStart_unix_start]
    · intro q hq
      have : q = max 0 (((minByStart p ps).unix_start - SCENARIO_START) / 60) :=
        (Option.some.injEq _ _ ▸ hq).symm
      rw [this]
      exact le_max_left _ _

unseal Rat.sub Rat.add Rat.mul Rat.inv Rat.ofScientific in
/-- Witness for C1 (amended) at concrete inputs. -/
theorem detection_latency_amended_witness :
    compute_detection_latency ([] : List Pass) = none
    ∧ (0 : Rat) ≤ 5 / 3 := by
  refine ⟨((detection_latency_amended []).1 rfl).1, ?_⟩
  have h := ((detection_latency_amended [mkPass 0 1 100 1767225700 1767225800]).2
    (by decide)).2.2
  exact h (5 / 3) (by decide)

/-! ## Claim C2 -/

unseal Rat.sub Rat.add Rat.mul Rat.inv Rat.ofScientific in
/-- C2 counterexample: two events `[0,100]` and `[50,150]` have a single
non-positive sorted adjacent gap, yet the revisit distribution reports 0 —
not infinity — for min/mean/median; moreover both degenerate cases carry
`count = 0` in the EEZ variant (the key is absent in the other), so `count`
does not distinguish them. -/
theorem revisit_zero_gaps_counterexample :
    compute_revisit_times [mkPass 0 1 100 0 100, mkPass 0 2 100 50 150]
      = { min := some 0, mean := some 0, max := 0, median := some 0, count := none }
    ∧ compute_revisit_times_eez [mkPass 0 1 100 0 100, mkPass 0 2 100 50 150]
      = { min := some 0, mean := some 0, max := 0, median := some 0, count := 0 }
    ∧ compute_revisit_times_eez [mkPass 0 1 100 0 100]
      = { min := none, mean := none, max := 0, median := none, count := 0 } := by
  exact ⟨by decide, by decide, by decide⟩

/-- C2 (amended): with fewer than two events the distribution reports
infinity for min/mean/median, zero for max, and a `count` of 0 in the EEZ
variant (the key is absent in the `compute_metrics.py` variant); with two or
more events all of whose sorted adjacent gaps are non-positive it reports 0
— not infinity — for min/mean/median, zero for max, and again `count` 0 /
absent.  The two cases are distinguishable via the min (or mean/median)
field, not via `count`. -/
theorem revisit_degenerate_amended (passes : List Pass) :
    (passes.length < 2 →
      compute_revisit_times passes
        = { min := none, mean := none, max := 0, median := none, count := none }
      ∧ compute_revisit_times_eez passes
        = { min := none, mean := none, max := 0, median := none, count := 0 })
    ∧ (2 ≤ passes.length →
      (∀ g ∈ adjacentGaps (sortByStart passes), g ≤ 0) →
      compute_revisit_times passes
        = { min := some 0, mean := some 0, max := 0, median := some 0, count := none }
      ∧ compute_revisit_times_eez passes
        = { min := some 0, mean := some 0, max := 0, median := some 0, count := 0 }) := by
  constructor
  · intro h
    exact ⟨by rw [compute_revisit_times, if_pos h],
           by rw [compute_revisit_times_eez, if_pos h]⟩
  · intro h hg
    have hfil : (adjacentGaps (sortByStart passes)).filter (fun g => decide (0 < g)) = [] := by
      rw [List.filter_eq_nil_iff]
      intro g hgmem
      simpa using not_lt.2 (hg g hgmem)
    constructor
    · rw [compute_revisit_times, if_neg (not_lt.2 h)]
      simp only [hfil, List.isEmpty_nil, if_true]
    · rw [compute_revisit_times_eez, if_neg (not_lt.2 h)]
      simp only [hfil, List.map_nil, List.isEmpty_nil, if_true]

unseal Rat.sub Rat.add Rat.mul Rat.inv Rat.ofScientific in
/-- Witness for C2 (amended) at concrete inputs. -/
theorem revisit_degenerate_amended_witness :
    compute_revisit_times [mkPass 0 1 100 0 100]
      = { min := none, mean := none, max := 0, median := none, count := none }
    ∧ compute_revisit_times_eez [mkPass 0 1 100 0 100, mkPass 0 2 100 50 150]
      = { min := some 0, mean := some 0, max := 0, median := some 0, count := 0 } := by
  refine ⟨((revisit_degenerate_amended _).1 (by decide)).1, ?_⟩
  exact ((revisit_degenerate_amended _).2 (by decide) (by decide)).2

/-! ## Claim C5 -/

theorem sortByStart_perm (passes : List Pass) : (sortByStart passes).Perm passes :=
  List.perm_insertionSort _ passes

theorem overlap_inner_length (a : Pass) : ∀ (l : List Pass),
    (l.filterMap (fun opt =>
        if max a.unix_start opt.unix_start < min a.unix_stop opt.unix_stop
        then some (min a.unix_stop opt.unix_stop - max a.unix_start opt.unix_start)
        else none)).length
    = (l.filter (fun b =>
        decide (max a.unix_start b.unix_start < min a.unix_stop b.unix_stop))).length
  | [] => rfl
  | b :: l => by
    rw [List.filterMap_cons, List.filter_cons]
    by_cases h : max a.unix_start b.unix_start < min a.unix_stop b.unix_stop
    · rw [if_pos h, if_pos (decide_eq_true h)]
      show ((min a.unix_stop b.unix_stop - max a.unix_start b.unix_start)
          :: l.filterMap _).length = _
      rw [List.length_cons, List.length_cons, overlap_inner_length a l]
    · rw [if_neg h, if_neg (by simp [h])]
      exact overlap_inner_length a l

theorem overlapDurations_length : ∀ (A B : List Pass),
    (overlapDurations A B).length
    = (A.flatMap (fun a => B.filter (fun b =>
        decide (max a.unix_start b.unix_start < min a.unix_stop b.unix_stop)))).length
  | [], _ => rfl
  | a :: A, B => by
    simp only [overlapDurations, List.flatMap_cons, List.length_append]
    have h1 := overlap_inner_length a B
    have h2 := overlapDurations_length A B
    simp only [overlapDurations] at h2
    omega

theorem overlapDurations_sort_perm (A B : List Pass) :
    (overlapDurations (sortByStart A) (sortByStart B)).Perm (overlapDurations A B) := by
  unfold overlapDurations
  refine List.Perm.trans ((sortByStart_perm A).flatMap_right _) ?_
  exact List.Perm.flatMap_left A (fun a _ => (sortByStart_perm B).filterMap _)

unseal Rat.sub Rat.add Rat.mul Rat.inv Rat.ofScientific in
/-- C5: the fusion-window computation yields exactly one window per pair
`(a, b)`, one event from each series, whose interval intersection
`[max(a.start, b.start), min(a.stop, b.stop)]` is non-degenerate
(`start < stop`), and none for degenerate pairs; in particular the events
`[0,100]` and `[50,150]` from different series yield exactly one fusion
window `[50,100]` of duration 50. -/
theorem fusion_windows_one_per_overlapping_pair (sar opt : List Pass) :
    (compute_fusion_windows sar opt).count
      = (sar.flatMap (fun a => opt.filter (fun b =>
          decide (max a.unix_start b.unix_start < min a.unix_stop b.unix_stop)))).length
    ∧ compute_fusion_windows [mkPass 0 1 100 0 100] [mkPass 1 1 100 50 150]
      = { count := 1, total_duration := 50, mean_duration := 50, max_duration := 50 }
    ∧ max (mkPass 0 1 100 0 100).unix_start (mkPass 1 1 100 50 150).unix_start = 50
    ∧ min (mkPass 0 1 100 0 100).unix_stop (mkPass 1 1 100 50 150).unix_stop = 100 := by
  refine ⟨?_, by decide, by decide, by decide⟩
  have key : (overlapDurations (sortByStart sar) (sortByStart opt)).length
      = (sar.flatMap (fun a => opt.filter (fun b =>
          decide (max a.unix_start b.unix_start < min a.unix_stop b.unix_stop)))).length :=
    ((overlapDurations_sort_perm sar opt).length_eq).trans (overlapDurations_length sar opt)
  simp only [compute_fusion_windows]
  split
  · next hemp =>
    rcases hemp with h | h
    · rw [List.isEmpty_iff.1 h]; rfl
    · rw [List.isEmpty_iff.1 h]
      simp only [List.filter_nil]
      have hz : (sar.flatMap (fun _ : Pass => ([] : List Pass))) = [] := by
        induction sar with
        | nil => rfl
        | cons a l ih => simp [ih]
      simp [hz]
  · next hemp =>
    split
    · next hov =>
      rw [← key, List.isEmpty_iff.1 hov]
      rfl
    · next hov => exact key

/-! ## Claim C6 -/

/-- C6: each source event contributes the latency to the relay event with
the minimum `start_time` among relays starting at or after the source event
ends (no sample when none exists), and when no source event has a match the
returned min/mean/max are all infinity. -/
theorem delivery_latency_nearest_relay (ship gs : List Pass) :
    (deliveryLatencies ship gs).Perm (ship.filterMap (fun s =>
        match gs.filter (fun g => decide (s.unix_stop ≤ g.unix_start)) with
        | [] => none
        | c :: cs => some (listMin ((c :: cs).map (fun g => g.unix_start)) - s.unix_stop)))
    ∧ (deliveryLatencies ship gs = [] →
        compute_delivery_latency ship gs
          = { min := none, mean := none, max := none, count := none }) := by
  constructor
  · have hcong : ∀ s ∈ ship,
        (fun ship_pass : Pass =>
          match (gs.insertionSort (fun a b => a.unix_start ≤ b.unix_start)).filter
              (fun g => decide (ship_pass.unix_stop ≤ g.unix_start)) with
          | [] => none
          | g :: rest => some ((minByStart g rest).unix_start - ship_pass.unix_stop)) s
        = (fun s : Pass =>
          match gs.filter (fun g => decide (s.unix_stop ≤ g.unix_start)) with
          | [] => none
          | c :: cs =>
            some (listMin ((c :: cs).map (fun g => g.unix_start)) - s.unix_stop)) s := by
      intro s _
      simp only []
      have hperm : ((gs.insertionSort (fun a b => a.unix_start ≤ b.unix_start)).filter
          (fun g => decide (s.unix_stop ≤ g.unix_start))).Perm
          (gs.filter (fun g => decide (s.unix_stop ≤ g.unix_start))) :=
        (List.perm_insertionSort _ gs).filter _
      cases h1 : (gs.insertionSort (fun a b => a.unix_start ≤ b.unix_start)).filter
          (fun g => decide (s.unix_stop ≤ g.unix_start)) with
      | nil =>
        rw [h1] at hperm
        rw [hperm.symm.eq_nil]
      | cons g rest =>
        rw [h1] at hperm
        cases h2 : gs.filter (fun g => decide (s.unix_stop ≤ g.unix_start)) with
        | nil => rw [h2] at hperm; exact absurd hperm.length_eq (by simp)
        | cons c cs =>
          rw [h2] at hperm
          simp only [Option.some.injEq]
          rw [minByStart_unix_start]
          rw [listMin_perm (hperm.map (fun g => g.unix_start))]
    have hstep := List.filterMap_congr hcong
    unfold deliveryLatencies
    refine List.Perm.trans ((List.perm_insertionSort
      (fun a b => a.unix_stop ≤ b.unix_stop) ship).filterMap _) ?_
    rw [hstep]
  · intro h
    rw [compute_delivery_latency]
    split
    · rfl
    · simp only [h, List.isEmpty_nil, if_true]

unseal Rat.sub Rat.add Rat.mul Rat.inv Rat.ofScientific in
/-- Witness for C6 at a concrete input with no matching relay. -/
theorem delivery_latency_nearest_relay_witness :
    compute_delivery_latency [mkPass 0 1 100 0 100] [mkPass 1 1 50 0 50]
      = { min := none, mean := none, max := none, count := none } := by
  exact (delivery_latency_nearest_relay _ _).2 (by decide)

/-! ## Claim C10 -/

theorem roundHalfEven_le (q : Rat) (n : Int) (h : q ≤ (n : Rat)) :
    roundHalfEven q ≤ n := by
  have hfl : ⌊q⌋ ≤ n := by
    rw [← Int.floor_intCast (α := Rat) n]
    exact Int.floor_le_floor h
  have hstep : ¬(q - (⌊q⌋ : Rat) < 1 / 2) → ⌊q⌋ + 1 ≤ n := by
    intro hc
    have h0 : (0 : Rat) < q - (⌊q⌋ : Rat) := lt_of_lt_of_le (by norm_num) (not_lt.1 hc)
    have h1 : ((⌊q⌋ : Int) : Rat) < (n : Rat) := lt_of_lt_of_le (by linarith) h
    exact Int.add_one_le_iff.2 (by exact_mod_cast h1)
  simp only [roundHalfEven]
  split
  · exact hfl
  · next hc =>
    split
    · exact hstep hc
    · split
      · exact hfl
      · exact hstep hc

theorem round1_le_100 (q : Rat) (h : q ≤ 100) : round1 q ≤ 100 := by
  unfold round1
  have h10 : (10 : Rat) * q ≤ ((1000 : Int) : Rat) := by push_cast; linarith
  have hr := roundHalfEven_le (10 * q) 1000 h10
  have hc : ((roundHalfEven (10 * q) : Int) : Rat) ≤ 1000 := by exact_mod_cast hr
  linarith

/-- C10 (amended): whenever `compute_fusion_benefits` emits an entry (both
sensors present for the constellation size), the reported
`fusion_coverage_pct` equals `min(sar_coverage + 0.5 * optical_coverage,
100)` rounded to one decimal place (Python `round(x, 1)` on the unrounded
per-sensor coverages), and consequently it never exceeds 100 even though
the per-sensor coverages are uncapped. -/
theorem fusion_coverage_rounded_min_capped (data : List AccessRecord) (c : Int)
    (b : FusionBenefit) (hb : compute_fusion_benefits_for data c = some b) :
    b.fusion_coverage_pct
      = round1 (min
          (((data.filter (fun r =>
              r.constellation_size == some c && r.sensor_type == "SAR")).map
              (fun r => r.duration_seconds)).sum / (24 * 3600) * 100
           + ((data.filter (fun r =>
              r.constellation_size == some c && r.sensor_type == "Optical")).map
              (fun r => r.duration_seconds)).sum / (24 * 3600) * 100 * (1 / 2)) 100)
    ∧ b.fusion_coverage_pct ≤ 100 := by
  simp only [compute_fusion_benefits_for] at hb
  split at hb
  · exact absurd hb (by simp)
  · injection hb with hb'
    constructor
    · rw [← hb']
    · rw [← hb']
      exact round1_le_100 _ (min_le_right _ _)

unseal Rat.sub Rat.add Rat.mul Rat.inv Rat.ofScientific in
/-- C10 counterexample: with one SAR record of 1062.72 s and one Optical
record of 0 s at size 6, `min(sar + 0.5*optical, 100)` is 1.23 but the
reported `fusion_coverage_pct` is the rounded 1.2, so the reported value is
not equal to the un-rounded minimum. -/
theorem fusion_coverage_not_exact_min_counterexample :
    (compute_fusion_benefits_for
        [⟨some 6, "SAR", 106272 / 100⟩, ⟨some 6, "Optical", 0⟩] 6).map
      (fun b => b.fusion_coverage_pct) = some (6 / 5)
    ∧ min ((106272 : Rat) / 100 / (24 * 3600) * 100
        + 0 / (24 * 3600) * 100 * (1 / 2)) 100 = 123 / 100
    ∧ (6 / 5 : Rat) ≠ 123 / 100 := by
  exact ⟨by decide, by decide, by decide⟩

unseal Rat.sub Rat.add Rat.mul Rat.inv Rat.ofScientific in
/-- Witness for C10 (amended) at a concrete input. -/
theorem fusion_coverage_rounded_min_capped_witness :
    (6 / 5 : Rat) ≤ 100 := by
  have h := fusion_coverage_rounded_min_capped
    [⟨some 6, "SAR", 106272 / 100⟩, ⟨some 6, "Optical", 0⟩] 6
    { constellation_size := 6, sar_coverage_pct := 6 / 5, optical_coverage_pct := 0,
      fusion_coverage_pct := 6 / 5, fusion_gain_multiplier := 1,
      sar_passes := 1, optical_passes := 1 }
    (by decide)
  exact h.2

/-! ## Claim C8 -/

theorem processCleanRow_short (st : ScanState) (row : List String)
    (h : row.length < 4) : processCleanRow st row = st := by
  rcases row with _ | ⟨c0, _ | ⟨c1, _ | ⟨c2, _ | ⟨c3, rest⟩⟩⟩⟩
  · rfl
  · rfl
  · rfl
  · rfl
  · simp only [List.length_cons] at h
    omega

/-- C8: a row whose cleaned cell list has fewer than four cells is skipped
silently — inserting it anywhere in a file leaves the parser's output
exactly unchanged. -/
theorem short_row_is_transparent (pre suf : List (List String)) (r : List String)
    (h : (cleanRow r).length < 4) :
    parse_stk_csv (pre ++ r :: suf) = parse_stk_csv (pre ++ suf) := by
  unfold parse_stk_csv
  rw [List.foldl_append, List.foldl_append, List.foldl_cons]
  rw [show processRow (List.foldl processRow { satellite_id := -1, passes := [] } pre) r
      = List.foldl processRow { satellite_id := -1, passes := [] } pre from
    processCleanRow_short _ (cleanRow r) h]

/-- Witness for C8 at a concrete file: a two-cell row inserted between a
header row and a data row does not change the parse. -/
theorem short_row_is_transparent_witness :
    parse_stk_csv
        [["Access", "Start Time (UTC)", "Stop Time (UTC)", "Duration (sec)"],
         ["x", "y"],
         ["1", "01 Jan 2026 00:00:00.000", "01 Jan 2026 00:10:00.000", "600.0"]]
      = parse_stk_csv
        [["Access", "Start Time (UTC)", "Stop Time (UTC)", "Duration (sec)"],
         ["1", "01 Jan 2026 00:00:00.000", "01 Jan 2026 00:10:00.000", "600.0"]] := by
  exact short_row_is_transparent
    [["Access", "Start Time (UTC)", "Stop Time (UTC)", "Duration (sec)"]]
    [["1", "01 Jan 2026 00:00:00.000", "01 Jan 2026 00:10:00.000", "600.0"]]
    ["x", "y"] (by decide)

/-! ## Claims C7 and C3: scanner case analysis -/

theorem processCleanRow_cases (st : ScanState) (cr : List String) :
    ((processCleanRow st cr).satellite_id
      = st.satellite_id + (if isHeaderRow cr then 1 else 0))
    ∧ ((processCleanRow st cr).passes = st.passes ∨
       (isHeaderRow cr = false ∧
        ∃ c0 c1 c2 c3 rest aid sstr pstr dur ust usp,
          cr = c0 :: c1 :: c2 :: c3 :: rest
          ∧ parseDataRow c0 c1 c2 c3 = some (aid, sstr, pstr, dur, ust, usp)
          ∧ (processCleanRow st cr).passes = st.passes ++
             [{ satellite_id := st.satellite_id, pass_num := aid, start_time_str := sstr,
                stop_time_str := pstr, duration_sec := dur, unix_start := ust,
                unix_stop := usp }])) := by
  rcases cr with _ | ⟨c0, _ | ⟨c1, _ | ⟨c2, _ | ⟨c3, rest⟩⟩⟩⟩
  · exact ⟨by simp [processCleanRow, isHeaderRow], Or.inl rfl⟩
  · exact ⟨by simp [processCleanRow, isHeaderRow], Or.inl rfl⟩
  · exact ⟨by simp [processCleanRow, isHeaderRow], Or.inl rfl⟩
  · exact ⟨by simp [processCleanRow, isHeaderRow], Or.inl rfl⟩
  · by_cases hhdr : (c0 == "Access"
        && decide (4 ≤ (c0 :: c1 :: c2 :: c3 :: rest).length)
        && strContains c1 "Start Time") = true
    · constructor
      · simp only [processCleanRow, if_pos hhdr, isHeaderRow, hhdr, if_true]
      · exact Or.inl (by simp only [processCleanRow, if_pos hhdr])
    · have hhf : isHeaderRow (c0 :: c1 :: c2 :: c3 :: rest) = false := by
        simp only [isHeaderRow]
        exact Bool.eq_false_iff.2 hhdr
      constructor
      · simp only [processCleanRow, if_neg hhdr, hhf, Bool.false_eq_true, if_false,
          add_zero]
        by_cases hstat : isStatRow c0 = true
        · rw [if_pos hstat]
        · rw [if_neg hstat]
          cases hpd : parseDataRow c0 c1 c2 c3 with
          | none => rfl
          | some t => rfl
      · simp only [processCleanRow, if_neg hhdr]
        by_cases hstat : isStatRow c0 = true
        · rw [if_pos hstat]; exact Or.inl rfl
        · rw [if_neg hstat]
          cases hpd : parseDataRow c0 c1 c2 c3 with
          | none => exact Or.inl rfl
          | some t =>
            rcases t with ⟨aid, sstr, pstr, dur, ust, usp⟩
            exact Or.inr ⟨hhf, c0, c1, c2, c3, rest, aid, sstr, pstr, dur, ust, usp,
              rfl, hpd, rfl⟩

theorem processRow_cases (st : ScanState) (row : List String) :
    ((processRow st row).satellite_id
      = st.satellite_id + (if isHeaderRow (cleanRow row) then 1 else 0))
    ∧ ((processRow st row).passes = st.passes ∨
       (isHeaderRow (cleanRow row) = false ∧
        ∃ c0 c1 c2 c3 rest aid sstr pstr dur ust usp,
          cleanRow row = c0 :: c1 :: c2 :: c3 :: rest
          ∧ parseDataRow c0 c1 c2 c3 = some (aid, sstr, pstr, dur, ust, usp)
          ∧ (processRow st row).passes = st.passes ++
             [{ satellite_id := st.satellite_id, pass_num := aid, start_time_str := sstr,
                stop_time_str := pstr, duration_sec := dur, unix_start := ust,
                unix_stop := usp }])) :=
  processCleanRow_cases st (cleanRow row)

theorem parse_aux_mem : ∀ (rows : List (List String)) (st : ScanState) (p : Pass),
    p ∈ (rows.foldl processRow st).passes →
    p ∈ st.passes ∨
    ∃ pre r suf, rows = pre ++ r :: suf
      ∧ isHeaderRow (cleanRow r) = false
      ∧ (∃ c0 c1 c2 c3 rest,
          cleanRow r = c0 :: c1 :: c2 :: c3 :: rest
          ∧ parseDataRow c0 c1 c2 c3 = some (p.pass_num, p.start_time_str,
              p.stop_time_str, p.duration_sec, p.unix_start, p.unix_stop))
      ∧ p.satellite_id = st.satellite_id
          + (pre.countP (fun q => isHeaderRow (cleanRow q)) : Int)
  | [], _, _, hp => Or.inl hp
  | row :: rest, st, p, hp => by
    rcases parse_aux_mem rest (processRow st row) p hp with hin |
      ⟨pre, r, suf, hsplit, hhdr, hdata, hsid⟩
    · rcases (processRow_cases st row).2 with hsame |
        ⟨hhf, c0, c1, c2, c3, rrest, aid, sstr, pstr, dur, ust, usp, hcr, hpd, hpass⟩
      · rw [hsame] at hin
        exact Or.inl hin
      · rw [hpass] at hin
        rcases List.mem_append.1 hin with hin' | hin'
        · exact Or.inl hin'
        · have hpe : p = { satellite_id := st.satellite_id, pass_num := aid, start_time_str := sstr, stop_time_str := pstr, duration_sec := dur, unix_start := ust, unix_stop := usp } := by simpa using hin'
          refine Or.inr ⟨[], row, rest, rfl, hhf,
            ⟨c0, c1, c2, c3, rrest, hcr, ?_⟩, ?_⟩
          · rw [hpe]
            exact hpd
          · rw [hpe]
            simp
    · refine Or.inr ⟨row :: pre, r, suf, by rw [hsplit]; rfl, hhdr, hdata, ?_⟩
      rw [hsid, (processRow_cases st row).1, List.countP_cons]
      cases hh : isHeaderRow (cleanRow row)
      · simp [hh]
      · simp [hh]
        ring

/-- C7 (amended): every emitted `AccessEvent` comes from a cleaned data row
(not a header row) whose fields parse, and its `satellite_id` equals the
number of header rows strictly before that row minus one.  In particular a
data row appearing before the first header row is still emitted, with
`satellite_id = -1` — such events are not suppressed. -/
theorem satellite_id_counts_headers (rows : List (List String)) (p : Pass)
    (hp : p ∈ parse_stk_csv rows) :
    ∃ pre r suf, rows = pre ++ r :: suf
      ∧ isHeaderRow (cleanRow r) = false
      ∧ (∃ c0 c1 c2 c3 rest,
          cleanRow r = c0 :: c1 :: c2 :: c3 :: rest
          ∧ parseDataRow c0 c1 c2 c3 = some (p.pass_num, p.start_time_str,
              p.stop_time_str, p.duration_sec, p.unix_start, p.unix_stop))
      ∧ p.satellite_id
          = (pre.countP (fun q => isHeaderRow (cleanRow q)) : Int) - 1 := by
  rcases parse_aux_mem rows { satellite_id := -1, passes := [] } p hp with hin |
    ⟨pre, r, suf, hsplit, hhdr, hdata, hsid⟩
  · exact absurd hin (List.not_mem_nil p)
  · exact ⟨pre, r, suf, hsplit, hhdr, hdata, by rw [hsid]; ring⟩

unseal Rat.sub Rat.add Rat.mul Rat.inv Rat.ofScientific in
/-- C7 counterexample: a well-formed data row placed before any header row
is emitted with `satellite_id = -1`, contradicting "every emitted event has
`satellite_id ≥ 0`" and "no event is emitted from a data row before the
first header row". -/
theorem negative_satellite_id_counterexample :
    (parse_stk_csv
        [["1", "01 Jan 2026 00:00:00.000", "01 Jan 2026 00:10:00.000", "600.0"]]).map
      (fun p => p.satellite_id) = [-1]
    ∧ ¬((-1 : Int) ≥ 0) := by
  exact ⟨by decide, by decide⟩

unseal Rat.sub Rat.add Rat.mul Rat.inv Rat.ofScientific in
/-- Witness for C7 (amended): in a file with one header row followed by one
data row, the emitted event satisfies the amended characterization. -/
theorem satellite_id_counts_headers_witness :
    ∃ pre r suf,
      ([["Access", "Start Time (UTC)", "Stop Time (UTC)", "Duration (sec)"],
        ["1", "01 Jan 2026 00:00:00.000", "01 Jan 2026 00:10:00.000", "600.0"]]
        : List (List String)) = pre ++ r :: suf
      ∧ isHeaderRow (cleanRow r) = false
      ∧ (∃ c0 c1 c2 c3 rest,
          cleanRow r = c0 :: c1 :: c2 :: c3 :: rest
          ∧ parseDataRow c0 c1 c2 c3 = some ((1 : Int), "01 Jan 2026 00:00:00.000",
              "01 Jan 2026 00:10:00.000", (600 : Rat), (1767225600 : Rat),
              (1767226200 : Rat)))
      ∧ (0 : Int) = (pre.countP (fun q => isHeaderRow (cleanRow q)) : Int) - 1 := by
  exact satellite_id_counts_headers _
    { satellite_id := 0, pass_num := 1, start_time_str := "01 Jan 2026 00:00:00.000", stop_time_str := "01 Jan 2026 00:10:00.000", duration_sec := 600, unix_start := 1767225600, unix_stop := 1767226200 }
    (by decide)

/-! ## Claim C3 -/

theorem parse_aux_integrity : ∀ (rows : List (List String)) (st : ScanState),
    (∀ r ∈ rows, rowParseIntegrity r = true) →
    (∀ p ∈ st.passes, p.unix_start < p.unix_stop
        ∧ |p.duration_sec - (p.unix_stop - p.unix_start)| ≤ 1 / 100) →
    ∀ p ∈ (rows.foldl processRow st).passes,
      p.unix_start < p.unix_stop
        ∧ |p.duration_sec - (p.unix_stop - p.unix_start)| ≤ 1 / 100
  | [], _, _, hst, p, hp => hst p hp
  | row :: rest, st, hrows, hst, p, hp => by
    refine parse_aux_integrity rest (processRow st row)
      (fun r hr => hrows r (List.mem_cons_of_mem _ hr)) ?_ p hp
    intro q hq
    rcases (processRow_cases st row).2 with hsame |
      ⟨hhf, c0, c1, c2, c3, rrest, aid, sstr, pstr, dur, ust, usp, hcr, hpd, hpass⟩
    · rw [hsame] at hq
      exact hst q hq
    · rw [hpass] at hq
      rcases List.mem_append.1 hq with h | h
      · exact hst q h
      · have hqe : q = { satellite_id := st.satellite_id, pass_num := aid, start_time_str := sstr, stop_time_str := pstr, duration_sec := dur, unix_start := ust, unix_stop := usp } := by simpa using h
        have hint := hrows row (List.mem_cons_self _ _)
        simp only [rowParseIntegrity, hcr, hpd, Bool.and_eq_true, decide_eq_true_eq]
          at hint
        rw [hqe]
        exact ⟨hint.1, hint.2⟩

/-- C3 (amended): the parser copies a data row's parsed timestamps and
duration into the emitted event unvalidated; consequently whenever every
row of the file that parses as a data row has its stop instant after its
start instant and its duration field within 0.01 s of their difference, so
does every emitted `AccessEvent` — but the parser itself enforces nothing,
and a row with reversed timestamps is emitted as-is. -/
theorem parser_invariant_conditional (rows : List (List String))
    (hrows : ∀ r ∈ rows, rowParseIntegrity r = true) :
    ∀ p ∈ parse_stk_csv rows,
      p.unix_start < p.unix_stop
        ∧ |p.duration_sec - (p.unix_stop - p.unix_start)| ≤ 1 / 100 :=
  parse_aux_integrity rows { satellite_id := -1, passes := [] } hrows
    (fun p hp => absurd hp (List.not_mem_nil p))

unseal Rat.sub Rat.add Rat.mul Rat.inv Rat.ofScientific in
/-- C3 counterexample: a data row with its timestamps reversed and an
unrelated duration field parses without error and is emitted as-is: the
event violates both `stop_time > start_time` and the duration-tolerance
claim. -/
theorem parser_emits_reversed_row_counterexample :
    (parse_stk_csv
        [["1", "02 Jan 2026 00:00:00.000", "01 Jan 2026 00:00:00.000", "600.0"]]).map
      (fun p => (p.unix_start, p.unix_stop, p.duration_sec))
      = [(1767312000, 1767225600, 600)]
    ∧ ¬((1767225600 : Rat) > 1767312000)
    ∧ ¬(|(600 : Rat) - (1767225600 - 1767312000)| ≤ 1 / 100) := by
  refine ⟨by decide, by decide, by decide⟩

unseal Rat.sub Rat.add Rat.mul Rat.inv Rat.ofScientific in
/-- Witness for C3 (amended) on a concrete well-formed file. -/
theorem parser_invariant_conditional_witness :
    (1767225600 : Rat) < 1767226200
    ∧ |(600 : Rat) - ((1767226200 : Rat) - 1767225600)| ≤ 1 / 100 := by
  have h := parser_invariant_conditional
    [["1", "01 Jan 2026 00:00:00.000", "01 Jan 2026 00:10:00.000", "600.0"]]
    (by decide)
  have hm : ({ satellite_id := -1, pass_num := 1, start_time_str := "01 Jan 2026 00:00:00.000", stop_time_str := "01 Jan 2026 00:10:00.000", duration_sec := 600, unix_start := 1767225600, unix_stop := 1767226200 } : Pass)
      ∈ parse_stk_csv
        [["1", "01 Jan 2026 00:00:00.000", "01 Jan 2026 00:10:00.000", "600.0"]] := by
    decide
  exact h _ hm

/-! ## Claim C9 -/

/-- C9: a ship-transit file whose name encodes several ship numbers (e.g.
`EEZ_West-Ship1_3_Access.csv`) yields one destination key per encoded ship,
and every key is mapped to the same parsed event sequence — the file is
parsed once, the result neither duplicated per key nor split. -/
theorem ship_file_multi_key_same_passes (filename : String) (rows : List (List String)) :
    processShipFile "EEZ_West-Ship1_3_Access.csv" rows
      = some ("West", [("Ship1", parse_stk_csv rows), ("Ship3", parse_stk_csv rows)])
    ∧ (∀ eez entries, processShipFile filename rows = some (eez, entries) →
        (∀ e ∈ entries, e.2 = parse_stk_csv rows)
        ∧ entries.map (fun e => e.1)
          = ((extractShipNumbers filename).getD []).map
              (fun n => "Ship" ++ toString n)) := by
  constructor
  · have h1 : extractEez "EEZ_West-Ship1_3_Access.csv" = some "West" := by decide
    have h2 : extractShipNumbers "EEZ_West-Ship1_3_Access.csv" = some [1, 3] := by decide
    have h3 : ("Ship" ++ toString (1 : Nat)) = "Ship1" := by decide
    have h4 : ("Ship" ++ toString (3 : Nat)) = "Ship3" := by decide
    simp [processShipFile, h1, h2, h3, h4]
  · intro eez entries h
    cases he : extractEez filename with
    | none => simp [processShipFile, he] at h
    | some e =>
      cases hs : extractShipNumbers filename with
      | none => simp [processShipFile, he, hs] at h
      | some ns =>
        simp only [processShipFile, he, hs, Option.bind_some, Option.some.injEq,
          Prod.mk.injEq] at h
        rcases h with ⟨-, rfl⟩
        constructor
        · intro ep hm
          obtain ⟨n, -, rfl⟩ := List.mem_map.1 hm
          rfl
        · rw [List.map_map]
          rfl

unseal Rat.sub Rat.add Rat.mul Rat.inv Rat.ofScientific in
/-- Witness for C9 on a concrete single-ship file name and empty file. -/
theorem ship_file_multi_key_same_passes_witness :
    (∀ e ∈ [(("Ship2" : String), ([] : List Pass))],
        e.2 = parse_stk_csv ([] : List (List String)))
    ∧ [(("Ship2" : String), ([] : List Pass))].map (fun e => e.1)
      = ((extractShipNumbers "EEZ_East-Ship2_Access.csv").getD []).map
          (fun n => "Ship" ++ toString n) := by
  exact (ship_file_multi_key_same_passes "EEZ_East-Ship2_Access.csv" []).2
    "East" [("Ship2", [])] (by decide)

end GalaxEye
